import Mathlib

/-!
Shallow embedding of `src/index.js` of offici5l/AiBotX: a single-file
Telegram moderation bot.  External calls (redis, the Telegram API, the
HuggingFace inference endpoint) are modelled by explicit inputs carrying
their results (`Except` for calls that can throw, error flags for the
fail-soft store), and the side effects a handler performs are collected
into an explicit trace.  JavaScript strings are modelled by `String`
(ASCII-faithful `trim`/`toUpper`), JavaScript numbers by `Int`/`Nat`
with `none` standing for `NaN` where a parse can fail.
-/

namespace AiBotX

/-- The verdict produced by the inference client: a violation flag plus a
reason string. -/
structure Verdict where
  violates : Bool
  reason : String
deriving Repr, DecidableEq

/-- JavaScript `String.trim()`: strip whitespace from both ends. -/
def jsTrim (s : String) : String :=
  ⟨((s.data.dropWhile Char.isWhitespace).reverse.dropWhile Char.isWhitespace).reverse⟩

/-- Split a character list at every occurrence of `sep`
(JavaScript `String.split` with a one-character separator). -/
def splitOnChar (sep : Char) : List Char → List (List Char)
  | [] => [[]]
  | c :: rest =>
    if c = sep then [] :: splitOnChar sep rest
    else
      match splitOnChar sep rest with
      | [] => [[c]]
      | h :: t => (c :: h) :: t

/-- JavaScript `s.split(sep)` for a one-character separator. -/
def jsSplit (s : String) (sep : Char) : List String :=
  (splitOnChar sep s.data).map (⟨·⟩)

/-- JavaScript `String.toUpperCase()` (ASCII letters). -/
def jsToUpper (s : String) : String :=
  ⟨s.data.map Char.toUpper⟩

/-- JavaScript `Array.join(sep)`. -/
def joinWith (sep : String) : List String → String
  | [] => ""
  | [x] => x
  | x :: rest => x ++ sep ++ joinWith sep rest

/-- Non-empty trimmed lines of a response body:
`content.split('\n').map(p => p.trim()).filter(Boolean)`. -/
def nonEmptyLines (content : String) : List String :=
  ((jsSplit content '\n').map jsTrim).filter (· != "")

/-- The chain `data.choices?.[0]?.message?.content?.trim()` coalesced to `""`: the
trimmed content string the parser works on, empty when the chain is missing
(line 43). -/
def responseContent (raw : Option String) : String :=
  (raw.map jsTrim).getD ""

/-- Case-insensitive string equality, by uppercasing both sides. -/
def eqIgnoreCase (a b : String) : Bool := jsToUpper a == jsToUpper b

/-- Model of `callHuggingFace` (src/index.js lines 31-57).  The argument is the outcome
of the `axios.post` call: `.error` for a thrown timeout/transport/HTTP error,
`.ok raw` for a response whose optional chain
`data.choices?.[0]?.message?.content` gives `raw` (`none` when any link of the
chain is missing). -/
def callHuggingFace (resp : Except Unit (Option String)) : Verdict :=
  match resp with
  | .error _ => { violates := false, reason := "Analysis unavailable" }
  | .ok raw =>
    let content := responseContent raw
    if content = "" then { violates := false, reason := "No analysis response" }
    else
      let parts := nonEmptyLines content
      let decision := jsToUpper (parts.headD "")
      let reason0 := joinWith " " (parts.drop 1)
      { violates := decision == "YES",
        reason := if reason0 = "" then "Unspecified" else reason0 }

/-- Decimal value of a digit list, most significant digit first. -/
def digitsVal (ds : List Char) : Nat :=
  ds.foldl (fun a c => a * 10 + (c.toNat - 48)) 0

/-- Leading decimal digits of a character list; `none` when there is none
(JavaScript `NaN`). -/
def parseDecDigits (cs : List Char) : Option Int :=
  let ds := cs.takeWhile Char.isDigit
  if ds.isEmpty then none else some ((digitsVal ds : Nat) : Int)

/-- Optional leading sign. -/
def splitSign (cs : List Char) : Int × List Char :=
  match cs with
  | c :: rest =>
    if c = '-' then (-1, rest) else if c = '+' then (1, rest) else (1, cs)
  | [] => (1, cs)

/-- JavaScript `parseInt(s, 10)`: skip leading whitespace, optional sign,
then the leading run of decimal digits; `none` models `NaN`.  (Exact-integer
model: the double-precision rounding of digit strings beyond 2^53 is not
modelled.) -/
def jsParseInt10 (s : String) : Option Int :=
  let cs := s.data.dropWhile Char.isWhitespace
  let sr := splitSign cs
  (parseDecDigits sr.2).map (sr.1 * ·)

def isHexDigitChar (c : Char) : Bool :=
  c.isDigit || ('a' ≤ c && c ≤ 'f') || ('A' ≤ c && c ≤ 'F')

def hexVal (c : Char) : Nat :=
  if c.isDigit then c.toNat - 48
  else if 'a' ≤ c && c ≤ 'f' then c.toNat - 87
  else c.toNat - 55

/-- Leading hexadecimal digits; `none` when there is none. -/
def parseHexDigits (cs : List Char) : Option Int :=
  let ds := cs.takeWhile isHexDigitChar
  if ds.isEmpty then none
  else some ((ds.foldl (fun a c => a * 16 + hexVal c) 0 : Nat) : Int)

/-- JavaScript `parseInt(s)` with no radix argument, as used by the `/unmute`
handler: like radix 10, except that a leading `0x`/`0X` after the optional
sign switches to hexadecimal. -/
def jsParseIntAuto (s : String) : Option Int :=
  let cs := s.data.dropWhile Char.isWhitespace
  let sr := splitSign cs
  let rest := sr.2
  let body :=
    if rest.take 2 = ['0', 'x'] ∨ rest.take 2 = ['0', 'X'] then
      parseHexDigits (rest.drop 2)
    else parseDecDigits rest
  body.map (sr.1 * ·)

/-- The external redis store: a partial map from string keys to string
values. -/
def Store := String → Option String

def Store.set (st : Store) (k v : String) : Store :=
  fun q => if q = k then some v else st q

def Store.del (st : Store) (k : String) : Store :=
  fun q => if q = k then none else st q

def emptyStore : Store := fun _ => none

def rulesKey (chatId : Int) : String := "group_simple_rules:" ++ toString chatId

def createdKey (chatId : Int) : String := "group_rules_created:" ++ toString chatId

/-- Model of `getSimpleRules` (lines 59-66): a store error (`err`) or a falsy value
(null or empty string) yields `null`. -/
def getSimpleRules (st : Store) (chatId : Int) (err : Bool) : Option String :=
  if err then none
  else match st (rulesKey chatId) with
    | none => none
    | some s => if s = "" then none else some s

/-- Model of `getRulesCreatedDate` (lines 68-75): reads the stored timestamp string and,
when the string is truthy, returns `parseInt(value, 10)` — a JavaScript number
that may be `NaN`, modelled as `some none`.  A store error or falsy value
yields `null` (`none`). -/
def getRulesCreatedDate (st : Store) (chatId : Int) (err : Bool) :
    Option (Option Int) :=
  if err then none
  else match st (createdKey chatId) with
    | none => none
    | some s => if s = "" then none else some (jsParseInt10 s)

def PROMPT_TEMPLATE : String :=
  "You are a strict Telegram group moderator. Your task is to analyze user messages or images for violations of the EXACT group rules listed below. ONLY consider these rules: {RULES}. Do not add, assume, or reference any other rules from your training data or external knowledge. First, verify step-by-step: 1) List each rule briefly. 2) Check if the content matches any rule exactly. 3) Decide YES only if there is a direct violation. Respond only with \"YES\" if the message/image violates any rule, followed by a brief explanation on a new line (reference the specific rule violated). Respond with \"NO\" if it does not violate any rules, followed by a brief reason on a new line. Keep responses concise. Do not repeat or quote the message/image content in your explanation to avoid re-sharing sensitive material."

/-- Index of the first occurrence of `pat` in `hay`, if any. -/
def firstIndexOf (hay pat : List Char) : Option Nat :=
  match hay with
  | [] => if pat = [] then some 0 else none
  | _ :: rest =>
    if pat.isPrefixOf hay then some 0 else (firstIndexOf rest pat).map (· + 1)

/-- JavaScript `String.replace` with a string pattern: first occurrence only. -/
def jsReplaceFirst (s pat rep : String) : String :=
  match firstIndexOf s.data pat.data with
  | none => s
  | some i => ⟨s.data.take i ++ rep.data ++ s.data.drop (i + pat.data.length)⟩

/-- Model of `buildFullPrompt` (lines 77-79):
`PROMPT_TEMPLATE.replace('{RULES}', rules.trim())`. -/
def buildFullPrompt (rules : String) : String :=
  jsReplaceFirst PROMPT_TEMPLATE "{RULES}" (jsTrim rules)

/-- Model of `setCustomRules` (lines 81-91): throws (returns `false`, modelled `none`)
when the raw rule text is shorter than 20 characters, before any write;
otherwise writes the trimmed text, then the epoch-seconds timestamp, and
returns the built prompt.  `err1`/`err2` model the two redis `set` calls
throwing: a throwing call leaves its key unwritten, and the `catch` turns the
whole call into `false` while keeping any write already made. -/
def setCustomRules (st : Store) (chatId : Int) (rules : String) (now : Nat)
    (err1 err2 : Bool) : Option String × Store :=
  if rules.length < 20 then (none, st)
  else if err1 then (none, st)
  else
    let st1 := st.set (rulesKey chatId) (jsTrim rules)
    if err2 then (none, st1)
    else (some (buildFullPrompt rules), st1.set (createdKey chatId) (toString now))

/-- The `/rules reset` branch (lines 155-164): deletes both keys in order;
`err1`/`err2` model the two redis `del` calls throwing.  The flag records
whether the success reply was sent. -/
def resetRules (st : Store) (chatId : Int) (err1 err2 : Bool) : Bool × Store :=
  if err1 then (false, st)
  else
    let st1 := st.del (rulesKey chatId)
    if err2 then (false, st1)
    else (true, st1.del (createdKey chatId))

def SPECIAL_ANONYMOUS_IDS : List Int := [1087968824, 136817688]

/-- Model of `isAuthorizedUser` (lines 93-102), paired with a flag recording whether the
`getChatMember` lookup was performed.  `lookup` is the lookup's outcome:
`.ok status` or a thrown error. -/
def isAuthorizedUser (userId : Int) (lookup : Except Unit String) : Bool × Bool :=
  if userId ∈ SPECIAL_ANONYMOUS_IDS then (true, false)
  else
    match lookup with
    | .ok status => (status == "administrator" || status == "creator", true)
    | .error _ => (false, true)

/-- JavaScript truthiness of an optional string: `null`/`undefined` and the
empty string are falsy. -/
def strTruthy : Option String → Option String
  | some s => if s = "" then none else some s
  | none => none

/-- The replied-to message captured by the `/report` handler (line 205); the
photo's binary content is not carried, only its presence.  A reply-markup
button cell is `none` for a null button, `some none` for a button without a
`text` field, `some (some t)` for text `t`. -/
structure RepliedMsg where
  fromId : Int
  firstName : Option String
  username : Option String
  messageId : Int
  text : Option String
  caption : Option String
  hasPhoto : Bool
  replyMarkup : Option (List (List (Option (Option String))))
  date : Nat
deriving DecidableEq

/-- The value `text || caption || ''` (line 207). -/
def repliedMessageText (r : RepliedMsg) : String :=
  match strTruthy r.text with
  | some t => t
  | none =>
    match strTruthy r.caption with
    | some c => c
    | none => ""

/-- The value `username ? @username : first_name || 'Unknown User'` (line 209). -/
def reportedUserDisplay (r : RepliedMsg) : String :=
  match strTruthy r.username with
  | some u => "@" ++ u
  | none => (strTruthy r.firstName).getD "Unknown User"

/-- The reported-user label of line 210: the display name plus the numeric ID. -/
def reportedUserInfo (r : RepliedMsg) : String :=
  reportedUserDisplay r ++ " (ID: " ++ toString r.fromId ++ ")"

/-- The inline-keyboard clause added to the analysis text (lines 222-237). -/
def markupText (r : RepliedMsg) : String :=
  match r.replyMarkup with
  | none => ""
  | some rows =>
    let buttons := (rows.map (fun row => row.filterMap (fun b =>
      match b with
      | some (some t) => if t = "" then none else some t
      | _ => none))).flatten
    if buttons.isEmpty then ""
    else " The message includes inline keyboard buttons with the following texts: \"" ++
      joinWith "\", \"" buttons ++ "\"."

/-- The user-content text built at line 256: the analysis request quoting the
message text, followed by the markup clause. -/
def analysisText (r : RepliedMsg) : String :=
  "Analyze this message for rule violations: \"" ++ repliedMessageText r ++ "\"" ++ markupText r

/-- An externally visible call made by a command handler, in program order. -/
inductive Effect where
  | reply (text : String)
  | editMessage (text : String)
  | getChatMember (userId : Int)
  | getFile
  | hfCall (system : String) (user : String)
  | deleteMessage (messageId : Int)
  | restrictMember (userId : Int) (canSend : Bool)
deriving Repr, DecidableEq

def Effect.isHfCall : Effect → Bool
  | .hfCall _ _ => true
  | _ => false

def Effect.isDeleteMessage : Effect → Bool
  | .deleteMessage _ => true
  | _ => false

def Effect.isRestrictMember : Effect → Bool
  | .restrictMember _ _ => true
  | _ => false

/-- Outcomes of the external calls a single `/report` run can make. -/
structure ReportEnv where
  memberStatus : Except Unit String
  rulesErr : Bool
  createdErr : Bool
  photoFetchOk : Bool
  hfResp : Except Unit (Option String)
  deleteOk : Bool
  restrictOk : Bool

/-- The reported user's exemption status (lines 211-219): allow-listed
anonymous IDs are exempt with no lookup; otherwise the `getChatMember`
outcome decides, any error giving `false`. -/
def reportedUserExempt (r : RepliedMsg) (memberStatus : Except Unit String) : Bool :=
  if r.fromId ∈ SPECIAL_ANONYMOUS_IDS then true
  else
    match memberStatus with
    | .ok s => s == "administrator" || s == "creator"
    | .error _ => false

/-- The `getChatMember` call the exemption check performs, when it performs
one. -/
def exemptionLookupEffects (r : RepliedMsg) : List Effect :=
  if r.fromId ∈ SPECIAL_ANONYMOUS_IDS then [] else [.getChatMember r.fromId]

/-- The test `rulesCreatedDate && messageDate < rulesCreatedDate` (line 248): the
stored value is truthy (a present, non-zero, non-NaN number) and the message
date is strictly below it. -/
def predatesRules (msgDate : Nat) (created : Option (Option Int)) : Bool :=
  match created with
  | some (some n) => n != 0 && decide ((msgDate : Int) < n)
  | _ => false

/-- The analysis phase of `/report` (lines 239-298): everything from the
"Analyzing" status message onward, reached only when the reported user is not
exempt.  A failing photo fetch throws inside the `try`, which edits the status
message to the generic failure notice; `callHuggingFace` itself never throws. -/
def reportAnalysisPhase (chatId : Int) (r : RepliedMsg) (st : Store)
    (env : ReportEnv) : List Effect :=
  let loading : List Effect := [.reply "🔍 Analyzing content..."]
  match getSimpleRules st chatId env.rulesErr with
  | none => loading ++
      [.editMessage "❌ No custom rules set for this group. Admins, use /rules set first."]
  | some simpleRules =>
    let predates := predatesRules r.date (getRulesCreatedDate st chatId env.createdErr)
    if predates then
      loading ++
        [.editMessage "❌ This message was sent before the rules were created. Cannot check violations for old messages."]
    else
      let fullPrompt := buildFullPrompt simpleRules
      if r.hasPhoto && !env.photoFetchOk then
        loading ++ [.getFile, .editMessage "❌ Analysis failed. Check rules or try again."]
      else
        let userText :=
          if r.hasPhoto then
            (if repliedMessageText r = "" then
              "Analyze this image for rule violations." ++ markupText r
             else analysisText r ++ " (The text is the image caption.)")
          else analysisText r
        let fetch : List Effect := if r.hasPhoto then [.getFile] else []
        let v := callHuggingFace env.hfResp
        let verdictMsg :=
          if v.violates then "⚠️ Violation detected: " ++ v.reason
          else "✅ All good: " ++ v.reason
        loading ++ fetch ++ [.hfCall fullPrompt userText, .editMessage verdictMsg] ++
        (if v.violates then
          (if !env.deleteOk then
            [.deleteMessage r.messageId,
             .reply ("Violation detected for " ++ reportedUserInfo r ++
               ", but action failed (e.g., admin rights needed). Reason: " ++ v.reason)]
           else if !env.restrictOk then
            [.deleteMessage r.messageId, .restrictMember r.fromId false,
             .reply ("Violation detected for " ++ reportedUserInfo r ++
               ", but action failed (e.g., admin rights needed). Reason: " ++ v.reason)]
           else
            [.deleteMessage r.messageId, .restrictMember r.fromId false,
             .reply ("User " ++ reportedUserInfo r ++ " muted permanently: " ++ v.reason ++
               "\n\n(Admins can use /unmute " ++ toString r.fromId ++ " to unmute.)")])
         else [])

/-- The `/report` handler (lines 201-299), as the trace of external calls it
makes. -/
def reportCommand (chatType : String) (chatId : Int) (replied : Option RepliedMsg)
    (st : Store) (env : ReportEnv) : List Effect :=
  if chatType ≠ "supergroup" then [.reply "This command is for groups only."]
  else
    match replied with
    | none => [.reply "Please reply to a message with /report to analyze it for rule violations."]
    | some r =>
      if repliedMessageText r = "" ∧ r.hasPhoto = false then
        [.reply "The replied message has no text or photo to analyze."]
      else
        exemptionLookupEffects r ++
        (if reportedUserExempt r env.memberStatus then
          [.reply ("ℹ️ This user (" ++ reportedUserInfo r ++
            ") is an admin or authorized special user. Moderation actions skipped.")]
         else reportAnalysisPhase chatId r st env)

/-- The `/unmute` argument extraction (lines 171-172):
`text.replace('/unmute', '').trim().split(' ')[0]?.trim()`. -/
def unmuteArgOf (msgText : String) : String :=
  jsTrim ((jsSplit (jsTrim (jsReplaceFirst msgText "/unmute" "")) ' ').headD "")

def unmuteUsage : String :=
  "Usage: /unmute <user_id>\nExample: /unmute 123456789\n(Only admins can use this.)"

/-- The target user's chat-member record, as fetched for display purposes. -/
structure MemberInfo where
  username : Option String
  firstName : Option String
deriving DecidableEq

/-- Outcomes of the external calls a single `/unmute` run can make. -/
structure UnmuteEnv where
  invokerLookup : Except Unit String
  restrictOk : Bool
  displayLookup : Except Unit MemberInfo

/-- The `/unmute` handler (lines 168-199), as the trace of external calls it
makes. -/
def unmuteCommand (chatType : String) (msgText : String) (invokerId : Int)
    (env : UnmuteEnv) : List Effect :=
  if chatType ≠ "supergroup" then [.reply "This command is for groups only."]
  else
    let userIdStr := unmuteArgOf msgText
    if userIdStr = "" then [.reply unmuteUsage]
    else
      match jsParseIntAuto userIdStr with
      | none => [.reply unmuteUsage]
      | some userId =>
        let auth := isAuthorizedUser invokerId env.invokerLookup
        (if auth.2 then [Effect.getChatMember invokerId] else []) ++
        (if !auth.1 then
          [.reply "Only admins or authorized special users can unmute users."]
         else if !env.restrictOk then
          [.restrictMember userId true,
           .reply ("❌ Failed to unmute user " ++ toString userId ++
             ". Check bot permissions or if the user exists.")]
         else
          let userDisplay :=
            match env.displayLookup with
            | .ok m =>
              match strTruthy m.username with
              | some u => "@" ++ u ++ " (ID: " ++ toString userId ++ ")"
              | none =>
                match strTruthy m.firstName with
                | some f => f ++ " (ID: " ++ toString userId ++ ")"
                | none => "User ID: " ++ toString userId
            | .error _ => "User ID: " ++ toString userId
          [.restrictMember userId true, .getChatMember userId,
           .reply ("✅ " ++ userDisplay ++ " unmuted successfully.")])

/-! ## Helper lemmas -/

theorem joinWith_space_ne_empty (x : String) (rest : List String) (hx : x ≠ "") :
    joinWith " " (x :: rest) ≠ "" := by
  cases rest with
  | nil => simpa [joinWith] using hx
  | cons y rest' =>
    intro h
    have hl := congrArg String.length h
    simp [joinWith, String.length_append] at hl
    exact absurd hl.1.2 (by decide)

theorem joinWith_space_eq_empty_iff (l : List String) (h : ∀ s ∈ l, s ≠ "") :
    joinWith " " l = "" ↔ l = [] := by
  cases l with
  | nil => simp [joinWith]
  | cons x rest =>
    simp only [iff_false, reduceCtorEq]
    exact fun hc => joinWith_space_ne_empty x rest (h x (List.mem_cons_self x rest)) hc

theorem nonEmptyLines_mem_ne (content : String) (s : String)
    (hs : s ∈ nonEmptyLines content) : s ≠ "" := by
  have := List.of_mem_filter hs
  simpa using this

/-! ## C1: response-parsing contract of the inference client -/

/-- The non-error branch of `callHuggingFace`, written out. -/
theorem callHuggingFace_ok (raw : Option String) :
    callHuggingFace (.ok raw) =
      (if responseContent raw = "" then
        { violates := false, reason := "No analysis response" }
       else
        { violates := jsToUpper ((nonEmptyLines (responseContent raw)).headD "") == "YES",
          reason :=
            if joinWith " " ((nonEmptyLines (responseContent raw)).drop 1) = "" then
              "Unspecified"
            else joinWith " " ((nonEmptyLines (responseContent raw)).drop 1) }) := rfl

/-- C1 (counterexample): on the single-line response `"YES"` the remaining
lines joined with spaces are empty, yet `callHuggingFace` returns the reason
`"Unspecified"`, not that empty join. -/
theorem callHuggingFace_single_line_cex :
    joinWith " " ((nonEmptyLines (responseContent (some "YES"))).drop 1) = "" ∧
    callHuggingFace (.ok (some "YES")) = { violates := true, reason := "Unspecified" } ∧
    ("Unspecified" : String) ≠ "" := by
  refine ⟨by decide, by decide, by decide⟩

/-- C1 (amended): the analyzer splits the response into non-empty trimmed
lines; `violates` is true exactly when the first line is case-insensitively
`"YES"`; the reason is the remaining lines joined with single spaces when
there are remaining lines, and `"Unspecified"` otherwise; a response carrying
no content yields `{violates := false, reason := "No analysis response"}`. -/
theorem callHuggingFace_parse (raw noContent : Option String)
    (h : responseContent raw ≠ "") (hnc : responseContent noContent = "") :
    callHuggingFace (.ok raw) =
      { violates := eqIgnoreCase ((nonEmptyLines (responseContent raw)).headD "") "YES",
        reason :=
          if (nonEmptyLines (responseContent raw)).drop 1 = [] then "Unspecified"
          else joinWith " " ((nonEmptyLines (responseContent raw)).drop 1) } ∧
    callHuggingFace (.ok noContent) =
      { violates := false, reason := "No analysis response" } := by
  constructor
  · rw [callHuggingFace_ok, if_neg h]
    have hdec : eqIgnoreCase ((nonEmptyLines (responseContent raw)).headD "") "YES" =
        (jsToUpper ((nonEmptyLines (responseContent raw)).headD "") == "YES") := by
      unfold eqIgnoreCase
      rfl
    rw [hdec]
    have hjoin : (joinWith " " ((nonEmptyLines (responseContent raw)).drop 1) = "") ↔
        (nonEmptyLines (responseContent raw)).drop 1 = [] := by
      apply joinWith_space_eq_empty_iff
      intro s hs
      exact nonEmptyLines_mem_ne _ s (List.mem_of_mem_drop hs)
    by_cases hd : (nonEmptyLines (responseContent raw)).drop 1 = []
    · rw [if_pos (hjoin.mpr hd), if_pos hd]
    · rw [if_neg (fun hc => hd (hjoin.mp hc)), if_neg hd]
  · rw [callHuggingFace_ok, if_pos hnc]

/-- C1 (witness): the spec's own example, response text `"no\nfine"`, is
non-empty content, and the theorem instantiated there gives the verdict
`{violates := false, reason := "fine"}`. -/
theorem callHuggingFace_parse_witness :
    callHuggingFace (.ok (some "no\nfine")) = { violates := false, reason := "fine" } := by
  have h := (callHuggingFace_parse (some "no\nfine") none (by decide) (by decide)).1
  rw [h]
  decide

/-! ## C10: single-line responses get the fixed reason "Unspecified" -/

/-- C10: a response whose non-empty trimmed lines are exactly one line (a bare
decision token) yields the fixed reason `"Unspecified"`, not an empty one. -/
theorem callHuggingFace_unspecified (raw : Option String) (s : String)
    (h : nonEmptyLines (responseContent raw) = [s]) :
    (callHuggingFace (.ok raw)).reason = "Unspecified" := by
  have hne : responseContent raw ≠ "" := by
    intro hc
    rw [hc] at h
    have : (nonEmptyLines "" : List String) = [] := by decide
    rw [this] at h
    exact absurd h (by simp)
  rw [callHuggingFace_ok, if_neg hne, h]
  rfl

/-- C10 (witness): instantiated at the one-line response `"NO"`. -/
theorem callHuggingFace_unspecified_witness :
    (callHuggingFace (.ok (some "NO"))).reason = "Unspecified" :=
  callHuggingFace_unspecified (some "NO") "NO" (by decide)

/-! ## C4: short rule text is rejected with no store write -/

/-- C4 (counterexample): the code checks the RAW length, not the trimmed one.
Rule text of 10 letters padded to raw length 20 with spaces has trimmed length
10 < 20, yet `setCustomRules` succeeds and writes the trimmed text. -/
theorem setCustomRules_trim_cex :
    (jsTrim "aaaaaaaaaa          ").length < 20 ∧
    (setCustomRules emptyStore 1 "aaaaaaaaaa          " 100 false false).1.isSome = true ∧
    (setCustomRules emptyStore 1 "aaaaaaaaaa          " 100 false false).2 (rulesKey 1) =
      some "aaaaaaaaaa" := by
  refine ⟨by decide, by decide, by decide⟩

/-- C4 (amended): rule text whose raw (untrimmed) length is shorter than 20
always fails, performs no store write, and leaves the store unchanged. -/
theorem setCustomRules_short (st : Store) (chatId : Int) (rules : String)
    (now : Nat) (err1 err2 : Bool) (h : rules.length < 20) :
    setCustomRules st chatId rules now err1 err2 = (none, st) := by
  unfold setCustomRules
  rw [if_pos h]

/-- C4 (witness): instantiated at a 9-character rule text. -/
theorem setCustomRules_short_witness :
    setCustomRules emptyStore 7 "too short" 123 false true = (none, emptyStore) :=
  setCustomRules_short emptyStore 7 "too short" 123 false true (by decide)

/-! ## C5: set/get round trip and reset/get absence -/

theorem rulesKey_ne_createdKey (chatId : Int) : rulesKey chatId ≠ createdKey chatId := by
  intro h
  have hd := congrArg (fun s => s.data[6]?) h
  simp only [rulesKey, createdKey, String.data_append] at hd
  rw [List.getElem?_append, List.getElem?_append] at hd
  norm_num at hd
  exact absurd hd (by decide)

/-- C5 (counterexample): a rule text of 20 spaces is accepted by
`setCustomRules` (raw length 20), but `getSimpleRules` afterwards returns
absent — not the trimmed input (the empty string). -/
theorem rules_roundtrip_cex :
    (setCustomRules emptyStore 1 "                    " 100 false false).1.isSome = true ∧
    getSimpleRules (setCustomRules emptyStore 1 "                    " 100 false false).2
      1 false = none ∧
    (none : Option String) ≠ some (jsTrim "                    ") := by
  refine ⟨by decide, by decide, by decide⟩

/-- C5 (amended): for every accepted rule text whose trimmed form is
non-empty, `setCustomRules` followed by `getSimpleRules` returns exactly the
trimmed input; and `resetRules` followed by `getSimpleRules` returns absent. -/
theorem rules_roundtrip (st st2 : Store) (chatId : Int) (rules : String) (now : Nat)
    (hacc : (setCustomRules st chatId rules now false false).1.isSome = true)
    (hne : jsTrim rules ≠ "") :
    getSimpleRules (setCustomRules st chatId rules now false false).2 chatId false
      = some (jsTrim rules) ∧
    getSimpleRules (resetRules st2 chatId false false).2 chatId false = none := by
  have hkey := rulesKey_ne_createdKey chatId
  constructor
  · have hlen : ¬ rules.length < 20 := by
      intro hl
      unfold setCustomRules at hacc
      rw [if_pos hl] at hacc
      simp at hacc
    unfold setCustomRules
    rw [if_neg hlen]
    simp only [Bool.false_eq_true, if_false]
    unfold getSimpleRules Store.set
    simp [hkey, hne]
  · unfold resetRules getSimpleRules Store.del
    simp [hkey]

/-- C5 (witness): instantiated with a concrete accepted rule text. -/
theorem rules_roundtrip_witness :
    getSimpleRules
      (setCustomRules emptyStore 1 "no spam, no ads, keep it technical" 100 false false).2
      1 false = some (jsTrim "no spam, no ads, keep it technical") ∧
    getSimpleRules (resetRules emptyStore 1 false false).2 1 false = none :=
  rules_roundtrip emptyStore emptyStore 1 "no spam, no ads, keep it technical" 100
    (by decide) (by decide)

/-! ## C8: creation-timestamp read -/

/-- A store whose creation-timestamp key for chat 7 holds a non-numeric
value. -/
def storeWithBadCreated : Store := Store.set emptyStore (createdKey 7) "abc"

/-- C8 (counterexample): with stored value `"abc"` (which does not parse as a
number), `getRulesCreatedDate` returns the present NaN marker `some none`,
not absence. -/
theorem getRulesCreatedDate_nan_cex :
    getRulesCreatedDate storeWithBadCreated 7 false = some none ∧
    getRulesCreatedDate storeWithBadCreated 7 false ≠ none := by
  refine ⟨by decide, by decide⟩

/-- C8 (amended): a store read error yields absence; a truthy stored value is
parsed with `parseInt(·, 10)` and returned as-is — so a value that does not
parse as a number yields the present NaN marker (`some none`), not absence. -/
theorem getRulesCreatedDate_spec (st : Store) (chatId : Int) (s : String)
    (hs : st (createdKey chatId) = some s) (hne : s ≠ "") :
    getRulesCreatedDate st chatId true = none ∧
    getRulesCreatedDate st chatId false = some (jsParseInt10 s) ∧
    (jsParseInt10 s = none → getRulesCreatedDate st chatId false ≠ none) := by
  have h2 : getRulesCreatedDate st chatId false = some (jsParseInt10 s) := by
    unfold getRulesCreatedDate
    simp only [Bool.false_eq_true, if_false]
    rw [hs]
    simp only [if_neg hne]
  refine ⟨rfl, h2, ?_⟩
  intro hn
  rw [h2, hn]
  simp

/-- C8 (witness): instantiated at the store holding `"abc"`. -/
theorem getRulesCreatedDate_spec_witness :
    getRulesCreatedDate storeWithBadCreated 7 true = none ∧
    getRulesCreatedDate storeWithBadCreated 7 false = some (jsParseInt10 "abc") :=
  ⟨(getRulesCreatedDate_spec storeWithBadCreated 7 "abc" (by decide) (by decide)).1,
   (getRulesCreatedDate_spec storeWithBadCreated 7 "abc" (by decide) (by decide)).2.1⟩

/-! ## C7: the authorization check -/

/-- C7: an allow-listed anonymous ID is authorized immediately, with no
membership lookup; any other ID is looked up, is authorized exactly when the
lookup yields status `administrator` or `creator`, and a lookup error gives
false. -/
theorem isAuthorizedUser_spec (userId : Int) (lookup : Except Unit String) :
    (userId ∈ SPECIAL_ANONYMOUS_IDS → isAuthorizedUser userId lookup = (true, false)) ∧
    (userId ∉ SPECIAL_ANONYMOUS_IDS →
      (isAuthorizedUser userId lookup).2 = true ∧
      ((isAuthorizedUser userId lookup).1 = true ↔
        lookup = .ok "administrator" ∨ lookup = .ok "creator") ∧
      (∀ e : Unit, lookup = .error e → (isAuthorizedUser userId lookup).1 = false)) := by
  constructor
  · intro hmem
    unfold isAuthorizedUser
    rw [if_pos hmem]
  · intro hmem
    unfold isAuthorizedUser
    rw [if_neg hmem]
    cases lookup with
    | error e => simp
    | ok s =>
      refine ⟨rfl, ?_, by simp⟩
      simp [Bool.or_eq_true, beq_iff_eq]

/-- C7 (witness): at the first allow-listed anonymous ID the check succeeds
with no lookup, even when the lookup would error. -/
theorem isAuthorizedUser_spec_witness :
    isAuthorizedUser 1087968824 (.error ()) = (true, false) :=
  (isAuthorizedUser_spec 1087968824 (.error ())).1 (by decide)

/-! ## Reduction lemmas for the report workflow -/

theorem reportCommand_exempt_eq (chatId : Int) (r : RepliedMsg) (st : Store)
    (env : ReportEnv)
    (hcontent : ¬(repliedMessageText r = "" ∧ r.hasPhoto = false))
    (hex : reportedUserExempt r env.memberStatus = true) :
    reportCommand "supergroup" chatId (some r) st env =
      exemptionLookupEffects r ++
        [.reply ("ℹ️ This user (" ++ reportedUserInfo r ++
          ") is an admin or authorized special user. Moderation actions skipped.")] := by
  unfold reportCommand
  simp only [ne_eq, not_true_eq_false, if_false, hex, if_true, if_neg hcontent]

theorem reportCommand_not_exempt_eq (chatId : Int) (r : RepliedMsg) (st : Store)
    (env : ReportEnv)
    (hcontent : ¬(repliedMessageText r = "" ∧ r.hasPhoto = false))
    (hex : reportedUserExempt r env.memberStatus = false) :
    reportCommand "supergroup" chatId (some r) st env =
      exemptionLookupEffects r ++ reportAnalysisPhase chatId r st env := by
  unfold reportCommand
  simp only [ne_eq, not_true_eq_false, if_false, hex, Bool.false_eq_true, if_neg hcontent]

/-! ## C2: exempt reported users end the workflow with an informational reply -/

/-- C2: when the reported sender is allow-listed anonymous, or the membership
lookup returns administrator or creator, the `/report` trace is exactly the
optional lookup followed by the informational reply — in particular it
contains no inference call, no message delete and no member restriction. -/
theorem report_exempt_skips (chatId : Int) (r : RepliedMsg) (st : Store) (env : ReportEnv)
    (hcontent : ¬(repliedMessageText r = "" ∧ r.hasPhoto = false))
    (hex : r.fromId ∈ SPECIAL_ANONYMOUS_IDS ∨
      env.memberStatus = .ok "administrator" ∨ env.memberStatus = .ok "creator") :
    reportCommand "supergroup" chatId (some r) st env =
      exemptionLookupEffects r ++
        [.reply ("ℹ️ This user (" ++ reportedUserInfo r ++
          ") is an admin or authorized special user. Moderation actions skipped.")] ∧
    ∀ e ∈ reportCommand "supergroup" chatId (some r) st env,
      e.isHfCall = false ∧ e.isDeleteMessage = false ∧ e.isRestrictMember = false := by
  have hexb : reportedUserExempt r env.memberStatus = true := by
    unfold reportedUserExempt
    rcases hex with h | h | h
    · rw [if_pos h]
    · rw [h]; by_cases hm : r.fromId ∈ SPECIAL_ANONYMOUS_IDS
      · rw [if_pos hm]
      · rw [if_neg hm]; decide
    · rw [h]; by_cases hm : r.fromId ∈ SPECIAL_ANONYMOUS_IDS
      · rw [if_pos hm]
      · rw [if_neg hm]; decide
  have hmain := reportCommand_exempt_eq chatId r st env hcontent hexb
  refine ⟨hmain, ?_⟩
  intro e he
  rw [hmain] at he
  unfold exemptionLookupEffects at he
  by_cases hm : r.fromId ∈ SPECIAL_ANONYMOUS_IDS
  · rw [if_pos hm] at he
    simp only [List.nil_append, List.mem_singleton] at he
    subst he
    exact ⟨rfl, rfl, rfl⟩
  · rw [if_neg hm] at he
    simp only [List.cons_append, List.nil_append, List.mem_cons,
      List.mem_singleton] at he
    rcases he with he | he | he
    · subst he; exact ⟨rfl, rfl, rfl⟩
    · subst he; exact ⟨rfl, rfl, rfl⟩
    · cases he

/-- A concrete reported message from an allow-listed anonymous sender. -/
def exemptMsg : RepliedMsg :=
  { fromId := 1087968824, firstName := none, username := some "anon",
    messageId := 10, text := some "hello", caption := none, hasPhoto := false,
    replyMarkup := none, date := 1000 }

/-- A concrete environment for `/report` runs. -/
def reportEnvA : ReportEnv :=
  { memberStatus := .error (), rulesErr := false, createdErr := false,
    photoFetchOk := true, hfResp := .ok (some "YES\nbad"), deleteOk := true,
    restrictOk := true }

/-- C2 (witness): instantiated at the anonymous-admin sender ID, the trace is
exactly the informational reply. -/
theorem report_exempt_skips_witness :
    reportCommand "supergroup" 1 (some exemptMsg) emptyStore reportEnvA =
      exemptionLookupEffects exemptMsg ++
        [.reply ("ℹ️ This user (" ++ reportedUserInfo exemptMsg ++
          ") is an admin or authorized special user. Moderation actions skipped.")] :=
  (report_exempt_skips 1 exemptMsg emptyStore reportEnvA (by decide)
    (Or.inl (by decide))).1

theorem exemptionLookupEffects_mem (r : RepliedMsg) (e : Effect)
    (he : e ∈ exemptionLookupEffects r) : e = .getChatMember r.fromId := by
  unfold exemptionLookupEffects at he
  by_cases hm : r.fromId ∈ SPECIAL_ANONYMOUS_IDS
  · rw [if_pos hm] at he; cases he
  · rw [if_neg hm] at he
    simpa using he

/-! ## C3: messages predating the rules abort before the inference call -/

/-- C3: when a rule-creation timestamp is stored and the replied-to message's
send time is strictly earlier, `/report` edits the status message to the
"message predates rules" notice and its trace contains no inference call. -/
theorem report_predates_aborts (chatId : Int) (r : RepliedMsg) (st : Store)
    (env : ReportEnv) (n : Int) (rules : String)
    (hcontent : ¬(repliedMessageText r = "" ∧ r.hasPhoto = false))
    (hex : reportedUserExempt r env.memberStatus = false)
    (hrules : getSimpleRules st chatId env.rulesErr = some rules)
    (hcreated : getRulesCreatedDate st chatId env.createdErr = some (some n))
    (hdate : (r.date : Int) < n) :
    reportCommand "supergroup" chatId (some r) st env =
      exemptionLookupEffects r ++
        [.reply "🔍 Analyzing content...",
         .editMessage "❌ This message was sent before the rules were created. Cannot check violations for old messages."] ∧
    ∀ e ∈ reportCommand "supergroup" chatId (some r) st env, e.isHfCall = false := by
  have hn0 : n ≠ 0 := by
    have h0 : (0 : Int) ≤ (r.date : Int) := Int.natCast_nonneg _
    omega
  have hpred : predatesRules r.date (getRulesCreatedDate st chatId env.createdErr) = true := by
    rw [hcreated]
    unfold predatesRules
    simp [hn0, hdate]
  have hphase : reportAnalysisPhase chatId r st env =
      [.reply "🔍 Analyzing content...",
       .editMessage "❌ This message was sent before the rules were created. Cannot check violations for old messages."] := by
    unfold reportAnalysisPhase
    rw [hrules]
    simp only [hpred, if_true]
    rfl
  have hmain := reportCommand_not_exempt_eq chatId r st env hcontent hex
  rw [hphase] at hmain
  refine ⟨hmain, ?_⟩
  intro e he
  rw [hmain] at he
  rcases List.mem_append.mp he with he | he
  · rw [exemptionLookupEffects_mem r e he]; rfl
  · simp only [List.mem_cons, List.mem_singleton] at he
    rcases he with he | he | he
    · subst he; rfl
    · subst he; rfl
    · cases he

/-- A concrete non-exempt reported message, sent at time 50. -/
def oldMsg : RepliedMsg :=
  { fromId := 42, firstName := some "Bob", username := none,
    messageId := 11, text := some "old text", caption := none, hasPhoto := false,
    replyMarkup := none, date := 50 }

/-- A store with rules for chat 1 created at time 100. -/
def storeRulesAt100 : Store :=
  (emptyStore.set (rulesKey 1) "no spam, no ads, tech only").set (createdKey 1) "100"

/-- An environment whose membership lookup returns a plain member. -/
def reportEnvB : ReportEnv :=
  { memberStatus := .ok "member", rulesErr := false, createdErr := false,
    photoFetchOk := true, hfResp := .ok (some "YES\nbad"), deleteOk := true,
    restrictOk := true }

/-- C3 (witness): a message sent at time 50 against rules created at 100
aborts with the predates notice. -/
theorem report_predates_aborts_witness :
    reportCommand "supergroup" 1 (some oldMsg) storeRulesAt100 reportEnvB =
      exemptionLookupEffects oldMsg ++
        [.reply "🔍 Analyzing content...",
         .editMessage "❌ This message was sent before the rules were created. Cannot check violations for old messages."] :=
  (report_predates_aborts 1 oldMsg storeRulesAt100 reportEnvB 100
    "no spam, no ads, tech only" (by decide) (by decide) (by decide) (by decide)
    (by decide)).1

/-! ## C6: inference failures fail closed and the workflow completes -/

/-- C6: a thrown inference call yields the no-violation verdict with reason
"Analysis unavailable", and a `/report` run reaching the inference step under
such a failure still completes: it publishes the clearance notice as its final
edit and never calls delete or restrict. -/
theorem report_inference_failure (chatId : Int) (r : RepliedMsg) (st : Store)
    (env : ReportEnv) (e : Unit) (rules : String)
    (hhf : env.hfResp = .error e)
    (hcontent : ¬(repliedMessageText r = "" ∧ r.hasPhoto = false))
    (hex : reportedUserExempt r env.memberStatus = false)
    (hrules : getSimpleRules st chatId env.rulesErr = some rules)
    (hpred : predatesRules r.date (getRulesCreatedDate st chatId env.createdErr) = false)
    (hfetch : r.hasPhoto = true → env.photoFetchOk = true) :
    callHuggingFace env.hfResp = { violates := false, reason := "Analysis unavailable" } ∧
    (∃ pre, reportCommand "supergroup" chatId (some r) st env =
      pre ++ [.editMessage "✅ All good: Analysis unavailable"]) ∧
    ∀ eff ∈ reportCommand "supergroup" chatId (some r) st env,
      eff.isDeleteMessage = false ∧ eff.isRestrictMember = false := by
  have hcall : callHuggingFace env.hfResp =
      { violates := false, reason := "Analysis unavailable" } := by
    rw [hhf]; rfl
  have hnofail : (r.hasPhoto && !env.photoFetchOk) = false := by
    cases hp : r.hasPhoto with
    | false => rfl
    | true => rw [hfetch hp]; rfl
  have hphase : reportAnalysisPhase chatId r st env =
      [Effect.reply "🔍 Analyzing content..."] ++
        (if r.hasPhoto then [Effect.getFile] else []) ++
        [.hfCall (buildFullPrompt rules)
          (if r.hasPhoto then
            (if repliedMessageText r = "" then
              "Analyze this image for rule violations." ++ markupText r
             else analysisText r ++ " (The text is the image caption.)")
           else analysisText r),
         .editMessage "✅ All good: Analysis unavailable"] := by
    unfold reportAnalysisPhase
    rw [hrules]
    simp only [hpred, Bool.false_eq_true, if_false, hnofail, hcall, List.append_nil]
    rfl
  have hmain := reportCommand_not_exempt_eq chatId r st env hcontent hex
  rw [hphase] at hmain
  refine ⟨hcall, ⟨exemptionLookupEffects r ++
    ([Effect.reply "🔍 Analyzing content..."] ++
      (if r.hasPhoto then [Effect.getFile] else []) ++
      [.hfCall (buildFullPrompt rules)
        (if r.hasPhoto then
          (if repliedMessageText r = "" then
            "Analyze this image for rule violations." ++ markupText r
           else analysisText r ++ " (The text is the image caption.)")
         else analysisText r)]), by rw [hmain]; simp⟩, ?_⟩
  intro eff heff
  rw [hmain] at heff
  rcases List.mem_append.mp heff with heff | heff
  · rw [exemptionLookupEffects_mem r eff heff]; exact ⟨rfl, rfl⟩
  · rcases List.mem_append.mp heff with heff | heff
    · rcases List.mem_append.mp heff with heff | heff
      · simp only [List.mem_singleton] at heff
        subst heff; exact ⟨rfl, rfl⟩
      · cases hp : r.hasPhoto with
        | false => rw [hp] at heff; cases heff
        | true =>
          rw [hp] at heff
          simp only [if_true, List.mem_singleton] at heff
          subst heff; exact ⟨rfl, rfl⟩
    · simp only [List.mem_cons, List.mem_singleton] at heff
      rcases heff with heff | heff | heff
      · subst heff; exact ⟨rfl, rfl⟩
      · subst heff; exact ⟨rfl, rfl⟩
      · cases heff

/-- A concrete non-exempt reported text message sent at time 500. -/
def spamMsg : RepliedMsg :=
  { fromId := 42, firstName := some "Bob", username := none,
    messageId := 12, text := some "buy now", caption := none, hasPhoto := false,
    replyMarkup := none, date := 500 }

/-- An environment whose inference call throws (timeout or transport error). -/
def reportEnvErr : ReportEnv :=
  { memberStatus := .ok "member", rulesErr := false, createdErr := false,
    photoFetchOk := true, hfResp := .error (), deleteOk := true,
    restrictOk := true }

/-- C6 (witness): a failing inference call on a concrete report run. -/
theorem report_inference_failure_witness :
    callHuggingFace reportEnvErr.hfResp =
      { violates := false, reason := "Analysis unavailable" } ∧
    (∃ pre, reportCommand "supergroup" 1 (some spamMsg) storeRulesAt100 reportEnvErr =
      pre ++ [.editMessage "✅ All good: Analysis unavailable"]) :=
  ⟨(report_inference_failure 1 spamMsg storeRulesAt100 reportEnvErr ()
      "no spam, no ads, tech only" rfl (by decide) (by decide) (by decide) (by decide)
      (by decide)).1,
   (report_inference_failure 1 spamMsg storeRulesAt100 reportEnvErr ()
      "no spam, no ads, tech only" rfl (by decide) (by decide) (by decide) (by decide)
      (by decide)).2.1⟩

/-! ## C9: `/unmute` accepts digit-prefixed arguments -/

theorem digit_not_ws (c : Char) (h : c.isDigit = true) : c.isWhitespace = false := by
  cases hws : c.isWhitespace
  · rfl
  · exfalso
    have hw := hws
    simp [Char.isWhitespace] at hw
    rcases hw with ((rfl | rfl) | rfl) | rfl <;> simp [Char.isDigit] at h

theorem digit_ne (c d : Char) (h : c.isDigit = true) (hd : d.isDigit = false) : c ≠ d := by
  intro he
  subst he
  rw [h] at hd
  cases hd

theorem data_head_append (p s : String) (c : Char) (hp : p.data.head? = some c) :
    (p ++ s).data.head? = some c := by
  rw [String.data_append]
  cases hd : p.data with
  | nil => rw [hd] at hp; cases hp
  | cons a l =>
    rw [hd] at hp
    simp only [List.cons_append, List.head?_cons] at hp ⊢
    exact hp

theorem append_ne_of_head (p s t : String) (c : Char) (hp : p.data.head? = some c)
    (ht : t.data.head? ≠ some c) : p ++ s ≠ t := by
  intro h
  exact ht (h ▸ data_head_append p s c hp)

theorem takeWhile_digits_append (ds suffix : List Char)
    (hdig : ∀ c ∈ ds, c.isDigit)
    (hsuf : ∀ c, suffix.head? = some c → c.isDigit = false) :
    (ds ++ suffix).takeWhile Char.isDigit = ds := by
  induction ds with
  | nil =>
    cases suffix with
    | nil => rfl
    | cons c rest =>
      simp only [List.nil_append, List.takeWhile_cons, hsuf c rfl]
      rfl
  | cons d ds' ih =>
    simp only [List.cons_append, List.takeWhile_cons,
      hdig d (List.mem_cons_self _ _), if_true]
    rw [ih (fun c hc => hdig c (List.mem_cons_of_mem _ hc))]

theorem parseDecDigits_append (ds suffix : List Char) (hne : ds ≠ [])
    (hdig : ∀ c ∈ ds, c.isDigit)
    (hsuf : ∀ c, suffix.head? = some c → c.isDigit = false) :
    parseDecDigits (ds ++ suffix) = some ((digitsVal ds : Nat) : Int) := by
  unfold parseDecDigits
  rw [takeWhile_digits_append ds suffix hdig hsuf]
  have : ds.isEmpty = false := by
    cases ds with
    | nil => exact absurd rfl hne
    | cons d ds' => rfl
  simp [this]

theorem jsParseIntAuto_digits (ds suffix : List Char) (hne : ds ≠ [])
    (hdig : ∀ c ∈ ds, c.isDigit)
    (hsuf : ∀ c, suffix.head? = some c → c.isDigit = false)
    (hnohex : ¬(ds = ['0'] ∧ (suffix.head? = some 'x' ∨ suffix.head? = some 'X'))) :
    jsParseIntAuto ⟨ds ++ suffix⟩ = some ((digitsVal ds : Nat) : Int) := by
  obtain ⟨d, ds', rfl⟩ : ∃ d ds', ds = d :: ds' := by
    cases ds with
    | nil => exact absurd rfl hne
    | cons d ds' => exact ⟨d, ds', rfl⟩
  have hd : d.isDigit = true := hdig d (List.mem_cons_self _ _)
  have hdrop : ((d :: ds') ++ suffix : List Char).dropWhile Char.isWhitespace
      = (d :: ds') ++ suffix := by
    rw [List.cons_append, List.dropWhile_cons, digit_not_ws d hd]
    rfl
  have hsign : splitSign ((d :: ds') ++ suffix) = (1, (d :: ds') ++ suffix) := by
    have hs0 : splitSign ((d :: ds') ++ suffix) =
        if d = '-' then ((-1 : Int), ds' ++ suffix)
        else if d = '+' then ((1 : Int), ds' ++ suffix)
        else ((1 : Int), (d :: ds') ++ suffix) := rfl
    rw [hs0, if_neg (digit_ne d '-' hd (by decide)),
      if_neg (digit_ne d '+' hd (by decide))]
  have htake : ¬(((d :: ds') ++ suffix).take 2 = ['0', 'x'] ∨
      ((d :: ds') ++ suffix).take 2 = ['0', 'X']) := by
    cases ds' with
    | nil =>
      cases hsx : suffix with
      | nil => simp
      | cons c rest =>
        subst hsx
        simp only [List.singleton_append, List.take_succ_cons, List.take_zero,
          List.cons.injEq]
        rintro (⟨rfl, hc, -⟩ | ⟨rfl, hc, -⟩) <;>
          exact hnohex ⟨rfl, by rw [hc]; simp⟩
    | cons d2 ds'' =>
      have hd2 : d2.isDigit = true := hdig d2 (List.mem_cons_of_mem _ (List.mem_cons_self _ _))
      simp only [List.cons_append, List.take_succ_cons, List.take_zero,
        List.cons.injEq]
      rintro (⟨-, hc, -⟩ | ⟨-, hc, -⟩)
      · exact digit_ne d2 'x' hd2 (by decide) hc
      · exact digit_ne d2 'X' hd2 (by decide) hc
  unfold jsParseIntAuto
  simp only [hdrop, hsign, if_neg htake,
    parseDecDigits_append (d :: ds') suffix hne hdig hsuf, Option.map_some, one_mul]
  rfl

/-- The environment for the `/unmute` counterexample run: an authorized
invoker, a succeeding restrict call, a failing display lookup. -/
def unmuteEnvCex : UnmuteEnv :=
  { invokerLookup := .ok "administrator", restrictOk := true,
    displayLookup := .error () }

/-- C9 (counterexample): the argument `"0x10"` begins with the decimal digit
`0` followed by non-digit characters, so the claim's numeric prefix is `0`;
validation passes, but the code parses the argument as hexadecimal and
restricts user 16, never user 0. -/
theorem unmute_hex_cex :
    unmuteArgOf "/unmute 0x10" = "0x10" ∧
    "0x10".data.takeWhile Char.isDigit = ['0'] ∧
    (Effect.reply unmuteUsage) ∉
      unmuteCommand "supergroup" "/unmute 0x10" 42 unmuteEnvCex ∧
    Effect.restrictMember 16 true ∈
      unmuteCommand "supergroup" "/unmute 0x10" 42 unmuteEnvCex ∧
    (∀ b, Effect.restrictMember 0 b ∉
      unmuteCommand "supergroup" "/unmute 0x10" 42 unmuteEnvCex) := by
  refine ⟨by decide, by decide, by decide, by decide, by decide⟩

/-- C9 (amended): an `/unmute` argument of decimal digits followed by
non-digit characters — except for the hexadecimal `0x`/`0X` forms, which
`parseInt` reads as hex — passes validation (no usage reply), and an
authorized invoker proceeds to a restrict call on the user identified by the
numeric prefix. -/
theorem unmute_digit_arg (msgText : String) (invokerId : Int) (env : UnmuteEnv)
    (ds suffix : List Char)
    (harg : (unmuteArgOf msgText).data = ds ++ suffix)
    (hne : ds ≠ [])
    (hdig : ∀ c ∈ ds, c.isDigit)
    (hsuf : ∀ c, suffix.head? = some c → c.isDigit = false)
    (hnohex : ¬(ds = ['0'] ∧ (suffix.head? = some 'x' ∨ suffix.head? = some 'X')))
    (hauth : (isAuthorizedUser invokerId env.invokerLookup).1 = true) :
    (Effect.reply unmuteUsage) ∉ unmuteCommand "supergroup" msgText invokerId env ∧
    Effect.restrictMember ((digitsVal ds : Nat) : Int) true ∈
      unmuteCommand "supergroup" msgText invokerId env := by
  have hargstr : unmuteArgOf msgText = ⟨ds ++ suffix⟩ := by
    cases hu : unmuteArgOf msgText with
    | mk l =>
      rw [hu] at harg
      exact congrArg String.mk harg
  have hparse : jsParseIntAuto (unmuteArgOf msgText) =
      some ((digitsVal ds : Nat) : Int) := by
    rw [hargstr]
    exact jsParseIntAuto_digits ds suffix hne hdig hsuf hnohex
  have hnonempty : ¬(unmuteArgOf msgText = "") := by
    intro hc
    have hdata := congrArg String.data hc
    rw [harg] at hdata
    rcases List.append_eq_nil.mp hdata with ⟨h1, -⟩
    exact hne h1
  have hfailne : ("❌ Failed to unmute user " ++ toString ((digitsVal ds : Nat) : Int) ++
      ". Check bot permissions or if the user exists.") ≠ unmuteUsage :=
    append_ne_of_head _ _ _ '❌' (data_head_append _ _ '❌' rfl) (by decide)
  have hsuccne : ∀ u : String, ("✅ " ++ u ++ " unmuted successfully.") ≠ unmuteUsage :=
    fun u => append_ne_of_head _ _ _ '✅' (data_head_append _ _ '✅' rfl) (by decide)
  unfold unmuteCommand
  rw [if_neg (by simp)]
  simp only [hparse, if_neg hnonempty, hauth, Bool.not_true, Bool.false_eq_true,
    if_false]
  cases hr : env.restrictOk with
  | false =>
    simp only [hr, Bool.not_false, if_true]
    refine ⟨?_, List.mem_append_right _ (List.mem_cons_self _ _)⟩
    intro hmem
    rcases List.mem_append.mp hmem with hmem | hmem
    · by_cases hl : (isAuthorizedUser invokerId env.invokerLookup).2 = true
      · rw [if_pos hl] at hmem
        simp at hmem
      · rw [if_neg hl] at hmem
        cases hmem
    · simp only [List.mem_cons, List.not_mem_nil, or_false] at hmem
      rcases hmem with hmem | hmem
      · exact absurd hmem (by simp)
      · injection hmem with h
        exact hfailne h.symm
  | true =>
    simp only [hr, Bool.not_true, Bool.false_eq_true, if_false]
    refine ⟨?_, List.mem_append_right _ (List.mem_cons_self _ _)⟩
    intro hmem
    rcases List.mem_append.mp hmem with hmem | hmem
    · by_cases hl : (isAuthorizedUser invokerId env.invokerLookup).2 = true
      · rw [if_pos hl] at hmem
        simp at hmem
      · rw [if_neg hl] at hmem
        cases hmem
    · simp only [List.mem_cons, List.not_mem_nil, or_false] at hmem
      rcases hmem with hmem | hmem | hmem
      · exact absurd hmem (by simp)
      · exact absurd hmem (by simp)
      · injection hmem with h
        exact hsuccne _ h.symm

/-- C9 (witness): instantiated at the argument `"123abc"`, whose digit run is
`"123"`. -/
theorem unmute_digit_arg_witness :
    (Effect.reply unmuteUsage) ∉
      unmuteCommand "supergroup" "/unmute 123abc" 42 unmuteEnvCex ∧
    Effect.restrictMember ((digitsVal ['1', '2', '3'] : Nat) : Int) true ∈
      unmuteCommand "supergroup" "/unmute 123abc" 42 unmuteEnvCex :=
  unmute_digit_arg "/unmute 123abc" 42 unmuteEnvCex ['1', '2', '3'] ['a', 'b', 'c']
    (by decide) (by decide) (by decide) (by decide) (by decide) (by decide)

end AiBotX
